import Mathlib

/-!
Shallow embedding of the quantitative core of the zipline repository
(src/lib/strategies/cf_strategy.py, src/lib/strategies/orders.py,
src/lib/calculations/price_calcs.py), together with theorems checking the
natural-language specification against it.

Real-valued Python float arithmetic is modelled by exact rational arithmetic
(`ℚ`); `int(x)` on a nonnegative value is modelled by `Int.toNat ⌊x⌋`;
a Python `ZeroDivisionError` is modelled by an `Option` result.
-/

/-- Python `round(x, 2)`: rounding to two decimal places, modelled on exact
rationals with `round` on the scaled value. -/
def round2 (x : ℚ) : ℚ := ((round (100 * x) : ℤ) : ℚ) / 100

/-- Arithmetic mean of a list of rationals (pandas `.mean()`); on the empty
list this yields `0/0 = 0`. -/
def mean (xs : List ℚ) : ℚ := xs.sum / (xs.length : ℚ)

/-! ## QuantityLadder (cf_strategy.py, create_sell_orders / create_buy_orders,
lines 131-136 and 164-169) -/

/-- The order weights `[2*x for x in range(1, cap)] = [2, 4, ..., 2*(cap-1)]`
from `create_sell_orders` / `create_buy_orders`. -/
def ladder_weights (cap : ℕ) : List ℕ := ((List.range cap).drop 1).map (fun x => 2 * x)

/-- One tranche quantity `int(scale*q)`; `scale*q` is nonnegative here, so
Python truncation toward zero is the floor. -/
def tranche (scale : ℚ) (q : ℕ) : ℕ := (⌊scale * (q : ℚ)⌋).toNat

/-- The quantity-ladder computation of `create_sell_orders` /
`create_buy_orders` (both methods contain the identical code):

    MAX_NUMBER_ORDERS = int(min(20, number_shares))
    quantities = [2*x for x in range(1, MAX_NUMBER_ORDERS)]
    scale = float(number_shares) / float(sum(quantities))
    quantities = [int(scale*q) for q in quantities if int(scale*q) != 0]

When `sum(quantities) = 0` (that is, `number_shares ≤ 1`) Python raises
`ZeroDivisionError`; this is modelled by `none`. -/
def ladder_quantities (number_shares : ℕ) : Option (List ℕ) :=
  let max_number_orders := min 20 number_shares
  let weights := ladder_weights max_number_orders
  if weights.sum = 0 then none
  else
    let scale : ℚ := (number_shares : ℚ) / (weights.sum : ℚ)
    some ((weights.map (tranche scale)).filter (fun q => q ≠ 0))

/-! ### Helper lemmas for the ladder invariants -/

/-- Dropping the zero entries of a list of naturals does not change its sum. -/
lemma sum_filter_ne_zero_nat (l : List ℕ) :
    (l.filter (fun q => q ≠ 0)).sum = l.sum := by
  induction l with
  | nil => rfl
  | cons a t ih =>
      by_cases ha : a = 0
      · rw [List.filter_cons_of_neg (by simp [ha]), ih, ha, List.sum_cons, Nat.zero_add]
      · rw [List.filter_cons_of_pos (by simp [ha]), List.sum_cons, List.sum_cons, ih]

/-- The sum of the tranche quantities is at most `scale` times the sum of the
weights (each tranche is a floor of the corresponding exact share). -/
lemma sum_tranche_le (c : ℚ) (hc : 0 ≤ c) (l : List ℕ) :
    (((l.map (tranche c)).sum : ℕ) : ℚ) ≤ c * ((l.sum : ℕ) : ℚ) := by
  induction l with
  | nil => simp
  | cons a t ih =>
      simp only [List.map_cons, List.sum_cons, Nat.cast_add, mul_add]
      have hnn : (0 : ℚ) ≤ c * (a : ℚ) := by positivity
      have hz : ((tranche c a : ℕ) : ℤ) = ⌊c * (a : ℚ)⌋ :=
        Int.toNat_of_nonneg (Int.floor_nonneg.mpr hnn)
      have h1 : ((tranche c a : ℕ) : ℚ) ≤ c * (a : ℚ) := by
        have hfl := Int.floor_le (c * (a : ℚ))
        rw [← hz] at hfl
        exact_mod_cast hfl
      exact add_le_add h1 ih

/-- The number of weights is `cap - 1`. -/
lemma ladder_weights_length (cap : ℕ) : (ladder_weights cap).length = cap - 1 := by
  simp [ladder_weights]

/-- Claim C1 (amended): for every `total_quantity ≥ 2` the ladder exists and
every entry is strictly positive, its length is at most `cap - 1` with
`cap = min 20 total_quantity`, and the sum of its entries is at most
`total_quantity`. (For `total_quantity = 1` the weight list is empty and the
computation fails with a division by zero; see the counterexample.) -/
theorem c1_ladder_invariants (n : ℕ) (hn : 2 ≤ n) :
    ∃ l, ladder_quantities n = some l ∧ (∀ q ∈ l, 0 < q) ∧
      l.length ≤ min 20 n - 1 ∧ l.sum ≤ n := by
  have h2 : 2 ≤ min 20 n := le_min (by norm_num) hn
  have h20 : min 20 n ≤ 20 := min_le_left _ _
  have hws : (ladder_weights (min 20 n)).sum ≠ 0 := by
    set cap := min 20 n with hcap
    clear_value cap
    interval_cases cap <;> decide
  have hS : ((ladder_weights (min 20 n)).sum : ℚ) ≠ 0 := Nat.cast_ne_zero.mpr hws
  have hscale_nonneg : 0 ≤ (n : ℚ) / ((ladder_weights (min 20 n)).sum : ℚ) := by
    positivity
  refine ⟨((ladder_weights (min 20 n)).map
      (tranche ((n : ℚ) / ((ladder_weights (min 20 n)).sum : ℚ)))).filter
      (fun q => q ≠ 0), ?_, ?_, ?_, ?_⟩
  · simp only [ladder_quantities]
    rw [if_neg hws]
  · intro q hq
    have := List.of_mem_filter hq
    simp only [decide_eq_true_eq] at this
    exact Nat.pos_of_ne_zero this
  · calc (((ladder_weights (min 20 n)).map
          (tranche ((n : ℚ) / ((ladder_weights (min 20 n)).sum : ℚ)))).filter
          (fun q => q ≠ 0)).length
        ≤ ((ladder_weights (min 20 n)).map
          (tranche ((n : ℚ) / ((ladder_weights (min 20 n)).sum : ℚ)))).length :=
          List.length_filter_le _ _
      _ = min 20 n - 1 := by
          rw [List.length_map, ladder_weights_length]
  · rw [sum_filter_ne_zero_nat]
    have hle := sum_tranche_le ((n : ℚ) / ((ladder_weights (min 20 n)).sum : ℚ))
      hscale_nonneg (ladder_weights (min 20 n))
    have heq : ((n : ℚ) / ((ladder_weights (min 20 n)).sum : ℚ)) *
        ((ladder_weights (min 20 n)).sum : ℚ) = (n : ℚ) :=
      div_mul_cancel₀ _ hS
    rw [heq] at hle
    exact_mod_cast hle

/-- Claim C1, counterexample to the original statement: `total_quantity = 1` is a
positive integer, but no ladder is produced: the weight list is empty, so the
scale computation divides by zero (Python `ZeroDivisionError`). -/
theorem c1_counterexample : ladder_quantities 1 = none := by decide

/-- Claim C1 witness: the ladder invariants instantiated at `total_quantity = 3`. -/
theorem c1_witness :
    2 ≤ 3 ∧ ∃ l, ladder_quantities 3 = some l ∧ (∀ q ∈ l, 0 < q) ∧
      l.length ≤ min 20 3 - 1 ∧ l.sum ≤ 3 :=
  ⟨by decide, c1_ladder_invariants 3 (by decide)⟩

/-- Claim C4, counterexample to the original statement: at `total_quantity = 0`
the code does not return an empty ladder; the weight list is empty and
`float(0)/float(0)` raises `ZeroDivisionError` (modelled as `none`). -/
theorem c4_counterexample : ladder_quantities 0 = none := by decide

/-- Claim C4 (amended): the ladder computation fails with a division-by-zero
error for `total_quantity = 0` and `total_quantity = 1` (the weight list is
empty, so `sum(quantities) = 0`), and for `total_quantity = 2` it returns the
single-tranche ladder `[2]` without error. -/
theorem c4_ladder_edge_cases :
    ladder_quantities 0 = none ∧ ladder_quantities 1 = none ∧
      ladder_quantities 2 = some [2] := by
  refine ⟨by decide, by decide, ?_⟩
  with_unfolding_all rfl

/-! ## OHLC bars and order construction (orders.py) -/

/-- One OHLC price bar; field names follow the pandas column names used in the
source (`open_price`, `high`, `low`, `close_price`). -/
structure Bar where
  open_price : ℚ
  high : ℚ
  low : ℚ
  close_price : ℚ
deriving DecidableEq

/-- Order side, the `instruction` argument of the order constructors. -/
inductive Instruction where
  | BUY : Instruction
  | SELL : Instruction
deriving DecidableEq

/-- pandas `Series.quantile(q)` with the default linear interpolation (an
external-library call in `smart_bracket`), modelled on exact rationals: sort
the sample ascending, take position `h = q*(n-1)` and interpolate linearly
between the neighbouring order statistics. -/
def quantile (xs : List ℚ) (q : ℚ) : ℚ :=
  let s := List.insertionSort (fun a b => a ≤ b) xs
  let h : ℚ := q * ((xs.length : ℚ) - 1)
  let i : ℕ := (⌊h⌋).toNat
  let lo := s.getD i 0
  let hi := s.getD (i + 1) lo
  lo + (h - (⌊h⌋ : ℚ)) * (hi - lo)

/-- `prices = bars[symbol].iloc[-n_days:]`: the trailing `n` rows. -/
def lastN (n : ℕ) {α : Type} (l : List α) : List α := l.drop (l.length - n)

/-- A bracket-order payload, the dict returned by `easy_bracket` /
`smart_bracket` in orders.py. -/
structure BracketOrder where
  symbol : String
  instruction : Instruction
  quantity : ℤ
  price : ℚ
  tif : String
  outside_rth : Bool
  profit_price : ℚ
  stop_price : Option ℚ
deriving DecidableEq

/-- `smart_bracket` from orders.py (lines 58-104).  `n_days = 50`; the window
is the trailing 50 bars; `low`, `high`, `hilo` are the per-bar series
`open-low`, `high-open`, `high-low`; the limit price is offset from the quote
by the `(1-limit_prob)` quantile, the profit price from the (unrounded) limit
price by the `(1-profit_prob)` quantile; rounding to 2 decimals happens last.
The `quantity` parameter is overwritten by `int(amount/quote)` before the
return, exactly as in the source. -/
def smart_bracket (symbol : String) (instruction : Instruction) (quantity : ℤ)
    (amount : ℚ) (limit_prob profit_prob : ℚ) (bars : List Bar) (quote : ℚ) :
    BracketOrder :=
  let n_days := 50
  let prices := lastN n_days bars
  let low := prices.map (fun b => b.open_price - b.low)
  let high := prices.map (fun b => b.high - b.open_price)
  let hilo := prices.map (fun b => b.high - b.low)
  let limit_price :=
    match instruction with
    | .BUY => quote - quantile low (1 - limit_prob)
    | .SELL => quote + quantile high (1 - limit_prob)
  let profit_price :=
    match instruction with
    | .BUY => limit_price + quantile hilo (1 - profit_prob)
    | .SELL => limit_price - quantile hilo (1 - profit_prob)
  let quantity := ⌊amount / quote⌋
  { symbol := symbol
    instruction := instruction
    quantity := quantity
    price := round2 limit_price
    tif := "DAY"
    outside_rth := true
    profit_price := round2 profit_price
    stop_price := none }

/-- A pegged-order payload, the dict returned by `auto_pegged` in orders.py. -/
structure PeggedOrder where
  symbol : String
  instruction : Instruction
  quantity : ℤ
  starting_price : ℚ
  outside_rth : Bool
  tif : String
  peg_change_amount : ℚ
  ref_change_amount : ℚ
  ref_symbol : String
  ref_price : ℚ
  ref_lower_price : ℚ
  ref_upper_price : ℚ
deriving DecidableEq

/-- `auto_pegged` from orders.py (lines 107-156): the price ratio
`quote/ref_quote` decides which leg gets the one-cent tick; the two branches
(`ratio > 1` / `ratio ≤ 1`) are the source's two `if` statements, which are
mutually exclusive. -/
def auto_pegged (symbol : String) (instruction : Instruction) (amount : ℚ)
    (ref_symbol : String) (quote ref_quote : ℚ) : PeggedOrder :=
  let quantity : ℤ := ⌊amount / quote⌋
  let rr := quote / ref_quote
  let changes : ℚ × ℚ :=
    if rr > 1 then ((1 / 100) * (⌊rr⌋ : ℚ), 1 / 100)
    else (1 / 100, (1 / 100) * (⌈1 / rr⌉ : ℚ))
  let starting_price :=
    match instruction with
    | .BUY => round2 (quote * (995 / 1000))
    | .SELL => round2 (quote * (1005 / 1000))
  { symbol := symbol
    instruction := instruction
    quantity := quantity
    starting_price := starting_price
    outside_rth := false
    tif := "DAY"
    peg_change_amount := changes.1
    ref_change_amount := changes.2
    ref_symbol := ref_symbol
    ref_price := ref_quote
    ref_lower_price := round2 ((9 / 10) * ref_quote)
    ref_upper_price := round2 ((11 / 10) * ref_quote) }

/-- Claim C2: for every symbol, quote and bar history, `smart_bracket` with
instruction BUY returns `price = round(quote - quantile(open-low over the last
50 bars, 1-limit_prob), 2)` and `profit_price = round(limit_price +
quantile(high-low, 1-profit_prob), 2)` (with the unrounded limit price), and
with instruction SELL it returns `price = round(quote + quantile(high-open,
1-limit_prob), 2)` and `profit_price = round(limit_price - quantile(high-low,
1-profit_prob), 2)`; the quantile is linear-interpolating and rounding to two
decimals is applied last. -/
theorem c2_smart_bracket_prices (symbol : String) (quantity : ℤ) (amount : ℚ)
    (limit_prob profit_prob : ℚ) (bars : List Bar) (quote : ℚ) :
    (smart_bracket symbol .BUY quantity amount limit_prob profit_prob bars quote).price
      = round2 (quote -
          quantile ((lastN 50 bars).map (fun b => b.open_price - b.low)) (1 - limit_prob)) ∧
    (smart_bracket symbol .BUY quantity amount limit_prob profit_prob bars quote).profit_price
      = round2 ((quote -
          quantile ((lastN 50 bars).map (fun b => b.open_price - b.low)) (1 - limit_prob)) +
          quantile ((lastN 50 bars).map (fun b => b.high - b.low)) (1 - profit_prob)) ∧
    (smart_bracket symbol .SELL quantity amount limit_prob profit_prob bars quote).price
      = round2 (quote +
          quantile ((lastN 50 bars).map (fun b => b.high - b.open_price)) (1 - limit_prob)) ∧
    (smart_bracket symbol .SELL quantity amount limit_prob profit_prob bars quote).profit_price
      = round2 ((quote +
          quantile ((lastN 50 bars).map (fun b => b.high - b.open_price)) (1 - limit_prob)) -
          quantile ((lastN 50 bars).map (fun b => b.high - b.low)) (1 - profit_prob)) :=
  ⟨rfl, rfl, rfl, rfl⟩

/-- Claim C10: the result of `smart_bracket` does not depend on the `quantity`
argument — two calls differing only in `quantity` return identical orders, and
the returned quantity is always recomputed as `int(amount/quote)` (the floor
for nonnegative values). -/
theorem c10_smart_bracket_quantity_ignored (symbol : String)
    (instruction : Instruction) (q1 q2 : ℤ) (amount : ℚ)
    (limit_prob profit_prob : ℚ) (bars : List Bar) (quote : ℚ) :
    smart_bracket symbol instruction q1 amount limit_prob profit_prob bars quote
      = smart_bracket symbol instruction q2 amount limit_prob profit_prob bars quote ∧
    (smart_bracket symbol instruction q1 amount limit_prob profit_prob bars quote).quantity
      = ⌊amount / quote⌋ :=
  ⟨rfl, rfl⟩

/-- Claim C5: the pegged-order tick sizes of `auto_pegged`: with
`ratio = quote/ref_quote`, if `ratio > 1` then `ref_change_amount = 0.01` and
`peg_change_amount = 0.01*floor(ratio)`; if `ratio ≤ 1` then
`peg_change_amount = 0.01` and `ref_change_amount = 0.01*ceil(1/ratio)`; in
particular quote 20 against 10 gives (0.02, 0.01) and quote 10 against 20
gives (0.01, 0.02). -/
theorem c5_auto_pegged_changes :
    (∀ (symbol ref_symbol : String) (instruction : Instruction)
        (amount quote ref_quote : ℚ), 0 < quote → 0 < ref_quote →
      ((quote / ref_quote > 1 →
        (auto_pegged symbol instruction amount ref_symbol quote ref_quote).ref_change_amount
            = 1 / 100 ∧
        (auto_pegged symbol instruction amount ref_symbol quote ref_quote).peg_change_amount
            = (1 / 100) * (⌊quote / ref_quote⌋ : ℚ)) ∧
       (quote / ref_quote ≤ 1 →
        (auto_pegged symbol instruction amount ref_symbol quote ref_quote).peg_change_amount
            = 1 / 100 ∧
        (auto_pegged symbol instruction amount ref_symbol quote ref_quote).ref_change_amount
            = (1 / 100) * (⌈1 / (quote / ref_quote)⌉ : ℚ)))) ∧
    (auto_pegged "A" .BUY 1000 "B" 20 10).peg_change_amount = 2 / 100 ∧
    (auto_pegged "A" .BUY 1000 "B" 20 10).ref_change_amount = 1 / 100 ∧
    (auto_pegged "A" .BUY 1000 "B" 10 20).peg_change_amount = 1 / 100 ∧
    (auto_pegged "A" .BUY 1000 "B" 10 20).ref_change_amount = 2 / 100 := by
  refine ⟨?_, ?_, ?_, ?_, ?_⟩
  · intro symbol ref_symbol instruction amount quote ref_quote hq hr
    constructor
    · intro hgt
      refine ⟨?_, ?_⟩ <;> simp [auto_pegged, if_pos hgt]
    · intro hle
      refine ⟨?_, ?_⟩ <;> simp [auto_pegged, if_neg (not_lt.mpr hle)]
  · with_unfolding_all rfl
  · with_unfolding_all rfl
  · with_unfolding_all rfl
  · with_unfolding_all rfl

/-- Claim C5 witness: the general branch statement instantiated at
quote 20, ref_quote 10 (ratio 2 > 1). -/
theorem c5_witness :
    (auto_pegged "A" .SELL 1000 "B" 20 10).ref_change_amount = 1 / 100 ∧
    (auto_pegged "A" .SELL 1000 "B" 20 10).peg_change_amount
      = (1 / 100) * (⌊(20 : ℚ) / 10⌋ : ℚ) :=
  (c5_auto_pegged_changes.1 "A" "B" .SELL 1000 20 10
    (by norm_num) (by norm_num)).1 (by norm_num)

/-! ## Price analytics (price_calcs.py) -/

/-- One output row of `calc_differentials`: the five relative differentials,
columns `cc`, `co`, `oc`, `high`, `low` in the source. -/
structure DiffRow where
  cc : ℚ
  co : ℚ
  oc : ℚ
  high : ℚ
  low : ℚ
deriving DecidableEq

/-- The five differentials of one consecutive bar pair, as computed (columnwise
over the whole aligned table) by `calc_differentials`. -/
def diff_row (prev cur : Bar) : DiffRow :=
  { cc := (cur.close_price - prev.close_price) / prev.close_price
    co := (cur.open_price - prev.close_price) / prev.close_price
    oc := (cur.close_price - cur.open_price) / cur.open_price
    high := (cur.high - cur.open_price) / cur.open_price
    low := (cur.low - cur.open_price) / cur.open_price }

/-- `calc_differentials` from price_calcs.py (lines 13-51), for one symbol's
bar series: row `i` (for `i ≥ 1`) pairs bar `i-1` (the `iloc[:-1]` slice) with
bar `i` (the `iloc[1:]` slice). -/
def calc_differentials (bars : List Bar) : List DiffRow :=
  (bars.zip bars.tail).map (fun pc => diff_row pc.1 pc.2)

/-- Index characterization of `calc_differentials`: entry `i` exists exactly
when bars `i` and `i+1` exist, and is their `diff_row`. -/
lemma calc_differentials_get? (bars : List Bar) (i : ℕ) :
    (calc_differentials bars).get? i =
      match bars.get? i, bars.get? (i + 1) with
      | some b0, some b1 => some (diff_row b0 b1)
      | some _, none => none
      | none, _ => none := by
  induction bars generalizing i with
  | nil => simp [calc_differentials]
  | cons b rest ih =>
      cases rest with
      | nil =>
          cases i with
          | zero => simp [calc_differentials]
          | succ n => simp [calc_differentials]
      | cons b1 rest1 =>
          cases i with
          | zero => simp [calc_differentials]
          | succ n =>
              have h := ih n
              simpa [calc_differentials] using h

/-- Claim C3: for every bar series with `N ≥ 2` rows, `calc_differentials`
returns exactly `N - 1` rows, and row `i` (0-based over the output, pairing
input bars `i` and `i+1`) carries
`cc = (close_i1 - close_i0)/close_i0`, `co = (open_i1 - close_i0)/close_i0`,
`oc = (close_i1 - open_i1)/open_i1`, `high = (high_i1 - open_i1)/open_i1`,
`low = (low_i1 - open_i1)/open_i1`. -/
theorem c3_calc_differentials (bars : List Bar) (h : 2 ≤ bars.length) :
    (calc_differentials bars).length = bars.length - 1 ∧
    ∀ i, i + 1 < bars.length →
      (calc_differentials bars).get? i =
        some (diff_row (bars.getD i ⟨0, 0, 0, 0⟩) (bars.getD (i + 1) ⟨0, 0, 0, 0⟩)) := by
  constructor
  · simp only [calc_differentials, List.length_map, List.length_zip, List.length_tail]
    omega
  · intro i hi
    have hi0 : i < bars.length := by omega
    have hb0 : bars.get? i = some (bars.get ⟨i, hi0⟩) := List.get?_eq_get hi0
    have hb1 : bars.get? (i + 1) = some (bars.get ⟨i + 1, hi⟩) := List.get?_eq_get hi
    rw [calc_differentials_get?, hb0, hb1]
    have hd0 : bars.getD i ⟨0, 0, 0, 0⟩ = bars.get ⟨i, hi0⟩ := by
      rw [List.getD_eq_get?, hb0, Option.getD_some]
    have hd1 : bars.getD (i + 1) ⟨0, 0, 0, 0⟩ = bars.get ⟨i + 1, hi⟩ := by
      rw [List.getD_eq_get?, hb1, Option.getD_some]
    rw [hd0, hd1]

/-- The two-bar example from the specification: closes `[100, 110]`, second-day
open 105, high 110, low 95. -/
def c3_demo : List Bar := [⟨100, 100, 100, 100⟩, ⟨105, 110, 95, 110⟩]

/-- Claim C3 witness: on the two-bar example the output has one row with
`cc = 0.10`, `co = 0.05`, `oc = 1/21`, `high = 1/21`, `low = -2/21`. -/
theorem c3_witness :
    (calc_differentials c3_demo).length = c3_demo.length - 1 ∧
    (calc_differentials c3_demo).get? 0 =
      some { cc := 1/10, co := 1/20, oc := 1/21, high := 1/21, low := -2/21 } := by
  have h := c3_calc_differentials c3_demo (by decide)
  refine ⟨h.1, ?_⟩
  rw [h.2 0 (by decide)]
  with_unfolding_all rfl

/-- pandas `Series.pct_change()` with the leading NaN dropped (`[1:]`):
fractional change between consecutive entries. -/
def pct_change (prices : List ℚ) : List ℚ :=
  (prices.zip prices.tail).map (fun pc => (pc.2 - pc.1) / pc.1)

/-- `scaled_price_change` from price_calcs.py (lines 54-78): the returns are
reversed (newest first); for each window length `i` in
`range(1, int(len(prices)/4))` the retained value is the plain mean of the
first `i` reversed returns (the rolling avg/std "scaled" statistic computed on
line 75 is overwritten by line 76 before the function returns). -/
def scaled_price_change (prices : List ℚ) : List (ℕ × ℚ) :=
  let dP := (pct_change prices).reverse
  let max_window_length := prices.length / 4
  (List.range' 1 (max_window_length - 1)).map (fun i => (i, mean (dP.take i)))

/-- Claim C9: for a price series of length `M+1` (so `M` returns), the result
has one entry per window length `w` from 1 to `⌊(M+1)/4⌋ - 1`, whose value is
the plain mean of the `w` most recent returns (the reversed series' first `w`
elements); and when the maximum window length is below 2 the result is empty
rather than an error. -/
theorem c9_scaled_price_change (prices : List ℚ) :
    (scaled_price_change prices).length = prices.length / 4 - 1 ∧
    (∀ w, 1 ≤ w → w < prices.length / 4 →
      (scaled_price_change prices).get? (w - 1) =
        some (w, mean (((pct_change prices).reverse).take w))) ∧
    (prices.length / 4 < 2 → scaled_price_change prices = []) := by
  refine ⟨?_, ?_, ?_⟩
  · simp [scaled_price_change]
  · intro w h1 h2
    have hw : w - 1 < prices.length / 4 - 1 := by omega
    rw [scaled_price_change]
    simp only [List.get?_map]
    rw [List.get?_range' 1 1 hw]
    have hsum : 1 + 1 * (w - 1) = w := by omega
    rw [hsum]
    simp
  · intro h
    have h0 : prices.length / 4 - 1 = 0 := by omega
    simp [scaled_price_change, h0]

/-- A 12-price demo series with constant return 1 for the C9 witness. -/
def c9_demo : List ℚ := [1, 2, 4, 8, 16, 32, 64, 128, 256, 512, 1024, 2048]

/-- Claim C9 witness: on the 12-price demo, `max_window_length = 3`, so there
are two entries, and the window-2 entry is the mean 1 of the last two
returns. -/
theorem c9_witness :
    (scaled_price_change c9_demo).length = 2 ∧
    (scaled_price_change c9_demo).get? 1 = some (2, 1) := by
  have h := c9_scaled_price_change c9_demo
  constructor
  · rw [h.1]
    decide
  · have h2 := h.2.1 2 (by decide) (by decide)
    exact h2.trans (by with_unfolding_all rfl)

/-! ## StrategySelector (cf_strategy.py) -/

/-- One row of the sellable-position snapshot consumed by
`run_sell_strategy`; field names follow the brokerage position columns used in
the source. -/
structure EtfPosition where
  symbol : String
  longQuantity : ℕ
  currentDayProfitLossPercentage : ℚ
deriving DecidableEq

/-- `run_sell_strategy` from cf_strategy.py (lines 186-200): filter the
already-filtered sellable positions by
`currentDayProfitLossPercentage > .01` and emit one
`create_sell_orders(symbol, longQuantity)` intent per surviving row. -/
def run_sell_strategy (etf_positions : List EtfPosition) : List (String × ℕ) :=
  let sells := etf_positions.filter
    (fun p => p.currentDayProfitLossPercentage > 1 / 100)
  sells.map (fun p => (p.symbol, p.longQuantity))

/-- Claim C8: sell orders are created exactly for the sellable positions whose
intraday profit/loss percentage exceeds the `+1%` threshold (`> 0.01`), and
for no others. -/
theorem c8_run_sell_strategy (positions : List EtfPosition) :
    (∀ p ∈ positions, p.currentDayProfitLossPercentage > 1 / 100 →
      (p.symbol, p.longQuantity) ∈ run_sell_strategy positions) ∧
    (∀ o ∈ run_sell_strategy positions, ∃ p ∈ positions,
      p.currentDayProfitLossPercentage > 1 / 100 ∧ o = (p.symbol, p.longQuantity)) := by
  constructor
  · intro p hp hgt
    simp only [run_sell_strategy, List.mem_map]
    exact ⟨p, List.mem_filter.mpr ⟨hp, by simpa using hgt⟩, rfl⟩
  · intro o ho
    simp only [run_sell_strategy, List.mem_map] at ho
    obtain ⟨p, hpf, rfl⟩ := ho
    have hm := List.mem_filter.mp hpf
    exact ⟨p, hm.1, by simpa using hm.2, rfl⟩

/-- A two-position demo snapshot for the C8 witness: one position up 2%, one
up exactly 1%. -/
def c8_demo : List EtfPosition :=
  [⟨"WIN", 5, 2 / 100⟩, ⟨"FLAT", 3, 1 / 100⟩]

/-- Claim C8 witness: on the demo snapshot the 2%-profit position is sold (via
the theorem) and the exactly-1% position is not (threshold is strict). -/
theorem c8_witness :
    ("WIN", 5) ∈ run_sell_strategy c8_demo ∧
    run_sell_strategy c8_demo = [("WIN", 5)] :=
  ⟨(c8_run_sell_strategy c8_demo).1 ⟨"WIN", 5, 2 / 100⟩
      (by with_unfolding_all decide) (by with_unfolding_all decide),
   by with_unfolding_all rfl⟩

/-- `dP.rolling(window=w).sum()` restricted to its non-NaN entries: the sums
of all full `w`-element windows (pandas marks the first `w-1` entries NaN and
`.mean()` skips them). -/
def rolling_sums (w : ℕ) (xs : List ℚ) : List ℚ :=
  (List.range (xs.length + 1 - w)).map (fun i => ((xs.drop i).take w).sum)

/-- `_estimate_30_day_return` from cf_strategy.py (lines 105-118), for one
symbol's close-price series:

    dP = P.pct_change()[1:]
    avg_60 = dP.rolling(window=60, axis=0).sum().mean()
    last_30 = dP.iloc[-30:].sum(axis=0)
    return avg_60 - last_30

`avg_60` is the mean over ALL full 60-element windows of the return series. -/
def estimate_30_day_return (closes : List ℚ) : ℚ :=
  let dP := pct_change closes
  mean (rolling_sums 60 dP) - (dP.drop (dP.length - 30)).sum

/-- Following the spec's words rather than the source (for the refinement
comparison of claim C7): a "60-period trailing mean of the rolling-60-sum of
daily returns", i.e. the mean of only the LAST 60 rolling sums, minus the sum
of the last 30 daily returns. -/
def spec_buy_score (closes : List ℚ) : ℚ :=
  let dP := pct_change closes
  let rs := rolling_sums 60 dP
  mean (rs.drop (rs.length - 60)) - (dP.drop (dP.length - 30)).sum

/-- One buy candidate: its ticker, close-price history and current
`regularMarketLastPrice` quote. -/
structure Candidate where
  symbol : String
  closes : List ℚ
  quote : ℚ
deriving DecidableEq

/-- The ranking score of a buy candidate. -/
def buy_score (c : Candidate) : ℚ := estimate_30_day_return c.closes

/-- Descending-score comparison used to model
`sort_values(ascending=False)`. -/
def rank_ge (a b : Candidate) : Prop := buy_score b ≤ buy_score a

instance : DecidableRel rank_ge :=
  fun a b => inferInstanceAs (Decidable (buy_score b ≤ buy_score a))

instance : IsTotal Candidate rank_ge :=
  ⟨fun a b => le_total (buy_score b) (buy_score a)⟩

instance : IsTrans Candidate rank_ge :=
  ⟨fun _ _ _ h1 h2 => le_trans h2 h1⟩

/-- `buy_ranking = self._estimate_30_day_return().sort_values(ascending=False)`:
the candidates sorted by descending score. -/
def buy_ranking (cands : List Candidate) : List Candidate :=
  List.insertionSort rank_ge cands

/-- `run_buy_strategy` from cf_strategy.py (lines 202-216):

    buy_ranking = self._estimate_30_day_return().sort_values(ascending=False)
    tickers = buy_ranking[[0, 10]].index
    quotes = self._td_api.get_quotes(tickers)["regularMarketLastPrice"]
    number_shares = [int(500./q) for q in quotes]

`buy_ranking[[0, 10]]` is positional fancy indexing with the list `[0, 10]`:
it selects the rows at positions 0 AND 10 (two rows), not a `0:10` slice.
Each selected candidate is sized `int(500/quote)` (the floor for the positive
quotes arising here). -/
def run_buy_strategy (cands : List Candidate) : List (String × ℕ) :=
  let ranking := buy_ranking cands
  let tickers := [0, 10].filterMap (fun i => ranking.get? i)
  tickers.map (fun c => (c.symbol, (⌊(500 : ℚ) / c.quote⌋).toNat))

/-- Claim C7 (amended): with at least 11 candidates, the buy strategy emits
exactly two orders — the candidates at descending-score ranking positions 0
and 10 (not the whole slice 0..10) — each sized `floor(500/quote)`; every
emitted order belongs to a candidate, and the first emitted order is a
candidate of maximal score (the score being the mean over all full 60-period
windows of the rolling-60-sum of daily returns minus the sum of the last 30
daily returns). -/
theorem c7_run_buy_strategy (cands : List Candidate) (h : 11 ≤ cands.length) :
    (run_buy_strategy cands).length = 2 ∧
    (∀ o ∈ run_buy_strategy cands, ∃ c ∈ cands,
      o = (c.symbol, (⌊(500 : ℚ) / c.quote⌋).toNat)) ∧
    (∃ c ∈ cands, (run_buy_strategy cands).get? 0
        = some (c.symbol, (⌊(500 : ℚ) / c.quote⌋).toNat) ∧
      ∀ d ∈ cands, buy_score d ≤ buy_score c) := by
  have hlen : (buy_ranking cands).length = cands.length := by
    simp [buy_ranking]
  have h0 : 0 < (buy_ranking cands).length := by omega
  have h10 : 10 < (buy_ranking cands).length := by omega
  have hg0 : (buy_ranking cands).get? 0 = some ((buy_ranking cands).get ⟨0, h0⟩) :=
    List.get?_eq_get h0
  have hg10 : (buy_ranking cands).get? 10 = some ((buy_ranking cands).get ⟨10, h10⟩) :=
    List.get?_eq_get h10
  have hmem : ∀ x ∈ buy_ranking cands, x ∈ cands := by
    intro x hx
    exact (List.perm_insertionSort rank_ge cands).mem_iff.mp hx
  have hrun : run_buy_strategy cands =
      [(((buy_ranking cands).get ⟨0, h0⟩).symbol,
          (⌊(500 : ℚ) / ((buy_ranking cands).get ⟨0, h0⟩).quote⌋).toNat),
       (((buy_ranking cands).get ⟨10, h10⟩).symbol,
          (⌊(500 : ℚ) / ((buy_ranking cands).get ⟨10, h10⟩).quote⌋).toNat)] := by
    simp only [run_buy_strategy, List.filterMap_cons, hg0, hg10, List.filterMap_nil]
    simp
  refine ⟨?_, ?_, ?_⟩
  · rw [hrun]
    rfl
  · intro o ho
    rw [hrun] at ho
    simp only [List.mem_cons, List.not_mem_nil, or_false] at ho
    rcases ho with h | h
    · exact ⟨(buy_ranking cands).get ⟨0, h0⟩, hmem _ (List.get_mem _ _ _), h⟩
    · exact ⟨(buy_ranking cands).get ⟨10, h10⟩, hmem _ (List.get_mem _ _ _), h⟩
  · refine ⟨(buy_ranking cands).get ⟨0, h0⟩, hmem _ (List.get_mem _ _ _), ?_, ?_⟩
    · rw [hrun]
      rfl
    · intro d hd
      have hsorted : List.Sorted rank_ge (buy_ranking cands) :=
        List.sorted_insertionSort rank_ge cands
      have hd_rank : d ∈ buy_ranking cands :=
        (List.perm_insertionSort rank_ge cands).mem_iff.mpr hd
      obtain ⟨j, hj⟩ := List.mem_iff_get.mp hd_rank
      rcases Nat.eq_zero_or_pos j.val with hj0 | hjpos
      · have hjeq : j = ⟨0, h0⟩ := Fin.ext hj0
        rw [← hj, hjeq]
      · have hrel := List.Sorted.rel_get_of_lt hsorted
          (show (⟨0, h0⟩ : Fin (buy_ranking cands).length) < j from hjpos)
        rw [← hj]
        exact hrel

/-- A close-price series whose single nonzero daily return is `k` (61 prices:
1 followed by sixty copies of `k+1`), so `estimate_30_day_return` evaluates to
exactly `k`. -/
def c7_closes (k : ℕ) : List ℚ := (1 : ℚ) :: List.replicate 60 ((k : ℚ) + 1)

/-- Eleven buy candidates with pairwise distinct scores 10, 9, ..., 0 (already
in descending order) and quote 250 each. -/
def c7_ex : List Candidate :=
  [⟨"A", c7_closes 10, 250⟩, ⟨"B", c7_closes 9, 250⟩, ⟨"C", c7_closes 8, 250⟩,
   ⟨"D", c7_closes 7, 250⟩, ⟨"E", c7_closes 6, 250⟩, ⟨"F", c7_closes 5, 250⟩,
   ⟨"G", c7_closes 4, 250⟩, ⟨"H", c7_closes 3, 250⟩, ⟨"I", c7_closes 2, 250⟩,
   ⟨"J", c7_closes 1, 250⟩, ⟨"K", c7_closes 0, 250⟩]

/-- A 121-price series (one unit step then flat at 2) on which the code's
score and the spec's "60-period trailing mean" score differ: the code averages
all 61 full rolling-60-sums (giving 1/61) while the spec's trailing mean uses
only the last 60 of them (giving 0). -/
def c7_long : List ℚ := (1 : ℚ) :: List.replicate 120 2

set_option maxRecDepth 100000 in
set_option maxHeartbeats 1000000 in
/-- Claim C7, counterexample to the original statement: on the eleven-candidate
example the strategy emits orders only for the candidates at ranking positions
0 and 10 ("A" and "K") — the position-5 candidate "F" is not selected, so the
claimed "positions 0 through 10" selection is wrong — and on `c7_long` the
code's score (mean over ALL full 60-windows of the rolling-60-sum) differs
from the spec's "60-period trailing mean of the rolling-60-sum". -/
theorem c7_counterexample :
    run_buy_strategy c7_ex = [("A", 2), ("K", 2)] ∧
    estimate_30_day_return c7_long = 1 / 61 ∧
    spec_buy_score c7_long = 0 := by
  refine ⟨?_, ?_, ?_⟩
  · with_unfolding_all rfl
  · with_unfolding_all rfl
  · with_unfolding_all rfl

/-- Claim C7 witness: the amended theorem instantiated on the eleven-candidate
example. -/
theorem c7_witness :
    11 ≤ c7_ex.length ∧ (run_buy_strategy c7_ex).length = 2 :=
  ⟨by decide, (c7_run_buy_strategy c7_ex (by decide)).1⟩

/-! ## FactorDecomposer (price_calcs.py, pca_analysis, lines 81-100)

The principal-component fit itself is an external sklearn call, so the
loadings frame is modelled as an arbitrary column-wise real matrix (one column
per component, one entry per date); the repository code under scrutiny is the
normalization step `loadings.apply(lambda x: x/np.sqrt(np.dot(x, x)))`. -/

noncomputable section

/-- `np.dot(x, x)` for one loadings column. -/
def col_sum_sq (col : List ℝ) : ℝ := (col.map (fun x => x * x)).sum

/-- The `lambda x: x/np.sqrt(np.dot(x, x))` applied by `pca_analysis` to one
column of the loadings frame. -/
def normalize_col (col : List ℝ) : List ℝ :=
  col.map (fun x => x / Real.sqrt (col_sum_sq col))

/-- The `norm_loadings` computation of `pca_analysis`: `DataFrame.apply` uses
its default `axis=0`, so the normalization runs over every COLUMN (one per
principal component) of the loadings frame — not over the per-date rows. -/
def norm_loadings (loading_cols : List (List ℝ)) : List (List ℝ) :=
  loading_cols.map normalize_col

/-- Row `i` of a column-wise matrix: the loading vector of date `i`. -/
def row_of (cols : List (List ℝ)) (i : ℕ) : List ℝ :=
  cols.map (fun c => c.getD i 0)

/-- Squared L2 norm of a vector. -/
def l2_norm_sq (v : List ℝ) : ℝ := (v.map (fun x => x * x)).sum

end

/-- A sum of squares is nonnegative. -/
lemma sum_sq_nonneg (v : List ℝ) : 0 ≤ (v.map (fun x => x * x)).sum :=
  List.sum_nonneg (by
    intro x hx
    obtain ⟨y, _, rfl⟩ := List.mem_map.mp hx
    exact mul_self_nonneg y)

/-- Dividing every entry by `c` divides the sum of squares by `c * c`. -/
lemma sum_map_div_sq (v : List ℝ) (c : ℝ) :
    (v.map (fun x => (x / c) * (x / c))).sum
      = (v.map (fun x => x * x)).sum / (c * c) := by
  induction v with
  | nil => simp
  | cons a t ih =>
      simp only [List.map_cons, List.sum_cons]
      rw [ih, div_mul_div_comm, add_div]

/-- Claim C6 (amended): the normalization in `pca_analysis` runs columnwise
(`DataFrame.apply` default `axis=0`), so for any loadings matrix whose columns
all have nonzero sum of squares, every COLUMN of `norm_loadings` has squared
L2 norm 1; the per-date rows are not normalized (see the counterexample). -/
theorem c6_column_norms (cols : List (List ℝ))
    (hnz : ∀ col ∈ cols, col_sum_sq col ≠ 0) :
    ∀ ncol ∈ norm_loadings cols, l2_norm_sq ncol = 1 := by
  intro ncol hmem
  obtain ⟨col, hcol, rfl⟩ := List.mem_map.mp hmem
  have hS := hnz col hcol
  have hSnn : 0 ≤ col_sum_sq col := sum_sq_nonneg col
  have hsqrt : Real.sqrt (col_sum_sq col) * Real.sqrt (col_sum_sq col)
      = col_sum_sq col := Real.mul_self_sqrt hSnn
  calc l2_norm_sq (normalize_col col)
      = (col.map (fun x => (x / Real.sqrt (col_sum_sq col))
          * (x / Real.sqrt (col_sum_sq col)))).sum := by
        rw [l2_norm_sq, normalize_col, List.map_map]
        rfl
    _ = (col.map (fun x => x * x)).sum
          / (Real.sqrt (col_sum_sq col) * Real.sqrt (col_sum_sq col)) :=
        sum_map_div_sq col (Real.sqrt (col_sum_sq col))
    _ = col_sum_sq col / col_sum_sq col := by rw [hsqrt]; rfl
    _ = 1 := div_self hS

/-- A loadings matrix (column-wise, four components over four dates) whose
columns are all unit vectors but whose first row is `[1, 1, 0, 0]`. -/
noncomputable def c6_bad_loadings : List (List ℝ) :=
  [[1, 0, 0, 0], [1, 0, 0, 0], [0, 1, 0, 0], [0, 0, 1, 0]]

/-- Claim C6, counterexample to the original statement: on `c6_bad_loadings`
(already column-normalized, so `norm_loadings` leaves it unchanged) the
loading vector of date 0 is `[1, 1, 0, 0]` with L2 norm `√2`, which differs
from 1 by far more than the `1e-9` tolerance: rows of `norm_loadings` are not
unit vectors. -/
theorem c6_counterexample :
    (1 : ℝ) / 1000000000 <
      |Real.sqrt (l2_norm_sq (row_of (norm_loadings c6_bad_loadings) 0)) - 1| := by
  have hrow : row_of (norm_loadings c6_bad_loadings) 0 = [1, 1, 0, 0] := by
    norm_num [c6_bad_loadings, norm_loadings, normalize_col, col_sum_sq, row_of,
      Real.sqrt_one]
  rw [hrow]
  have h2 : l2_norm_sq [1, 1, 0, 0] = 2 := by
    norm_num [l2_norm_sq]
  rw [h2]
  have hs : (1 : ℝ) + 1 / 1000000000 < Real.sqrt 2 := by
    rw [Real.lt_sqrt (by norm_num)]
    norm_num
  have h1 : (1 : ℝ) ≤ Real.sqrt 2 := by
    have := hs
    linarith
  rw [abs_of_nonneg (by linarith)]
  linarith

/-- Claim C6 witness: the amended column-norm theorem instantiated on the
one-column matrix `[[3, 4]]` (sum of squares 25). -/
theorem c6_witness : l2_norm_sq (normalize_col [3, 4]) = 1 :=
  c6_column_norms [[3, 4]]
    (by
      intro col hc
      rw [List.mem_singleton] at hc
      subst hc
      norm_num [col_sum_sq])
    (normalize_col [3, 4])
    (by simp [norm_loadings])
